import Mathlib

/-!
Verification of the gymadvisorai core: a shallow embedding of the
Planner/Reflector agent loop (src/core/agent.py, src/core/agent_full.py),
the bounded conversation memory (src/tools/memory.py), the local graph
engine (src/tools/graph_rag.py) and the TF-IDF retrieval engine
(src/gymadvisorai/rag.py), together with proofs of the specified
properties.

Python floats are modelled as exact real numbers; Python dicts keyed by
strings are modelled as association lists (when iteration order matters)
or as total functions with default value (for the document-frequency
table, which the code only reads through `get(t, 0)` and increments).
-/

namespace GymAdvisor

/-! ### Python string helpers -/

/-- Membership of a character in the Python word-character class
`[A-Za-z0-9_]` used by the TF-IDF tokenizer regex. -/
def isWordChar (c : Char) : Bool :=
  ('A' ≤ c && c ≤ 'Z') || ('a' ≤ c && c ≤ 'z') || ('0' ≤ c && c ≤ '9') || c = '_'

/-- Whitespace characters recognised by Python `str.strip()` and
`str.split()` (ASCII subset; the repository only feeds it ASCII spacing). -/
def isPySpace (c : Char) : Bool :=
  c = ' ' || c = '\t' || c = '\n' || c = '\r' || c = '\x0b' || c = '\x0c'

/-- Python `str.lower()` as a character map (`String.toLower` in the
kernel-reducible char-list form); ASCII letters are lowered, which covers
every token produced by the ASCII word regex. -/
def strLower (s : String) : String := ⟨s.data.map Char.toLower⟩

/-- Python `s.strip()`: drop leading and trailing whitespace. -/
def pyStrip (s : String) : String :=
  ⟨((s.data.dropWhile isPySpace).reverse.dropWhile isPySpace).reverse⟩

/-- Python `s.strip(chars)` for an explicit character list: drop leading and
trailing characters belonging to `cs`. -/
def pyStripChars (cs : List Char) (s : String) : String :=
  ⟨((s.data.dropWhile (fun c => c ∈ cs)).reverse.dropWhile (fun c => c ∈ cs)).reverse⟩

/-- Accumulating splitter: collect maximal runs of characters satisfying
`p`, discarding separators.  `cur` holds the current run in reverse. -/
def runsAux (p : Char → Bool) (cur : List Char) : List Char → List (List Char)
  | [] => if cur.isEmpty then [] else [cur.reverse]
  | c :: cs =>
    if p c then runsAux p (c :: cur) cs
    else if cur.isEmpty then runsAux p [] cs
    else cur.reverse :: runsAux p [] cs

/-- Maximal runs of characters satisfying `p`, in order. -/
def runs (p : Char → Bool) (l : List Char) : List (List Char) := runsAux p [] l

/-- Tokenizer of the TF-IDF engine (`_tokenize` in rag.py): lowercased
maximal runs of `[A-Za-z0-9_]` characters.  `Char.toLower` matches Python
`str.lower()` on the ASCII tokens the word regex produces. -/
def tokenize (s : String) : List String :=
  (runs isWordChar s.data).map (fun cs => ⟨cs.map Char.toLower⟩)

/-- Python `s.split()`: maximal runs of non-whitespace characters. -/
def pySplit (s : String) : List String :=
  (runs (fun c => !isPySpace c) s.data).map (fun cs => ⟨cs⟩)

/-- Prefix test on character lists. -/
def isPrefixChars : List Char → List Char → Bool
  | [], _ => true
  | _ :: _, [] => false
  | a :: as, b :: bs => a = b && isPrefixChars as bs

/-- Substring test on character lists (`pat` occurs contiguously). -/
def isSubChars (pat : List Char) : List Char → Bool
  | [] => pat.isEmpty
  | b :: bs => isPrefixChars pat (b :: bs) || isSubChars pat bs

/-- Python `pat in hay` substring membership. -/
def containsSub (hay pat : String) : Bool := isSubChars pat.data hay.data

/-! ### Memory (src/tools/memory.py)

`Memory.add` appends a (question, answer) turn and keeps `self.turns[-8:]`;
`Memory.as_text` flattens `self.turns[-6:]`. -/

/-- Last `n` elements of a list, as Python `l[-n:]` for positive `n`. -/
def takeLastN (n : ℕ) (l : List α) : List α := l.drop (l.length - n)

/-- State of the `Memory` dataclass: the rolling list of
(user question, assistant answer) turns. -/
structure MemoryState where
  turns : List (String × String)
deriving Repr, DecidableEq

/-- Model of `Memory.add`: append the new turn, retain the last 8. -/
def memAdd (m : MemoryState) (u a : String) : MemoryState :=
  ⟨takeLastN 8 (m.turns ++ [(u, a)])⟩

/-- Transcript lines produced by `Memory.as_text` for a list of turns. -/
def turnLines (ts : List (String × String)) : List String :=
  ts.flatMap (fun p => ["User: " ++ p.1, "Assistant: " ++ p.2])

/-- Model of `Memory.as_text`: empty string on no turns, else the flattened
lines of the last 6 turns joined by newlines. -/
def memAsText (m : MemoryState) : String :=
  if m.turns.isEmpty then ""
  else String.intercalate "\n" (turnLines (takeLastN 6 m.turns))

/-- Fold a list of (question, answer) pairs through `memAdd`, starting from
an arbitrary memory. -/
def memAddAll (m : MemoryState) (ops : List (String × String)) : MemoryState :=
  ops.foldl (fun m p => memAdd m p.1 p.2) m

/-! ### Planner/Reflector loop of `Agent.run` (src/core/agent.py)

The language-model service and the tool collaborators are external; we
model them as oracles.  `_parse_json` turns the raw model reply into a
Python dict, returning `{}` when the reply (and its brace-extracted
substring) is unparsable; the loop then reads the dict only through
`.get(key)` with per-key defaults.  We therefore model a parsed reply as a
record of optional fields, with the all-`none` record standing for the
empty dict produced by a parse failure. -/

/-- Parsed router reply: the fields `Agent.run` reads from the first
`_parse_json` result.  `none` models a missing key (in particular the
empty dict returned on a parse failure). -/
structure RouteJson where
  intent : Option String
  tool : Option String
  tool_input : Option String
deriving Repr, DecidableEq

/-- Parsed reflection reply: the fields `Agent.run` reads from the
reflection `_parse_json` result. -/
structure ReflectJson where
  sufficient : Option Bool
  reflection : Option String
  next_tool : Option String
  next_tool_input : Option String
deriving Repr, DecidableEq

/-- The empty dict `{}` that `_parse_json` returns when the reflection
reply cannot be parsed as JSON: every `.get` comes back missing. -/
def emptyReflect : ReflectJson := ⟨none, none, none, none⟩

/-- Python `x or default` for an optional string field, where both a
missing key and an empty string are falsy. -/
def pyOrStr (o : Option String) (d : String) : String :=
  match o with
  | none => d
  | some s => if s = "" then d else s

/-- One entry of the `trace` list built by `Agent.run`
(`TraceStep` in src/core/types.py). -/
structure TraceStep where
  step : ℕ
  intent : String
  tool : String
  tool_input : String
  observation : String
  reflection : String
deriving Repr, DecidableEq

/-- Result of the `Agent.run` loop: the accumulated trace, the number of
tool executions performed (ACT phases), and the last observation used for
final-answer synthesis. -/
structure LoopResult where
  trace : List TraceStep
  acts : ℕ
  lastObs : String
deriving Repr, DecidableEq

/-- Tool names accepted by `Agent.run` (the tuple checked at lines 110 and
186 of src/core/agent.py). -/
def agentTools : List String :=
  ["matcher", "what_if", "analytics", "graph_build", "vector_rag", "graph_rag", "none"]

/-- Tool names whose branch in the `Agent.run` dispatch actually executes a
tool; every other name falls into the `else` no-op branch. -/
def isRealTool (tool : String) : Bool :=
  tool = "matcher" || tool = "what_if" || tool = "analytics" ||
    tool = "graph_build" || tool = "vector_rag" || tool = "graph_rag"

/-- Observation text of one dispatch branch of `Agent.run`: the enumerated
tools return the summarised collaborator output (modelled by the oracle
`observe`), anything else produces the literal no-op observation. -/
def dispatchObs (observe : String → String → String) (tool input : String) : String :=
  if isRealTool tool then observe tool input else "No tool used."

/-- ACT-phase counter increment of one dispatch branch. -/
def actInc (tool : String) : ℕ := if isRealTool tool then 1 else 0

/-- Body of the `for step in range(1, max_steps + 1)` loop of `Agent.run`,
by recursion on the remaining iteration budget `fuel`.  `reflect` is the
oracle giving the parsed reflection reply of each step, `observe` the
collaborator oracle, `acc`/`acts` the trace and ACT count so far. -/
def agentSteps (observe : String → String → String) (reflect : ℕ → ReflectJson)
    (intent : String) : ℕ → ℕ → String → String → List TraceStep → ℕ → String → LoopResult
  | 0, _, _, _, acc, acts, lastObs => ⟨acc, acts, lastObs⟩
  | fuel + 1, step, tool, input, acc, acts, _ =>
    let obs := dispatchObs observe tool input
    let r := reflect step
    let sufficient := r.sufficient.getD true
    let reflection := pyOrStr (some (pyStrip (pyOrStr r.reflection ""))) "OK."
    let nextTool := pyOrStr r.next_tool "none"
    let nextInput := pyStrip (pyOrStr r.next_tool_input "")
    let acc' := acc ++ [⟨step, intent, tool, input, obs, reflection⟩]
    let acts' := acts + actInc tool
    if sufficient || nextTool == "none" then ⟨acc', acts', obs⟩
    else
      agentSteps observe reflect intent fuel (step + 1)
        (if nextTool ∈ agentTools then nextTool else "vector_rag")
        (if nextInput = "" then input else nextInput)
        acc' acts' obs

/-- Keyword-based forced routing of `Agent.run` (lines 90 to 96): what-if
vocabulary forces the simulation tool, counting vocabulary the analytics
tool. -/
def forcedToolFor (ql : String) : Option String :=
  if (["what-if", "co jeśli", "co sie stanie", "co się stanie", "symul",
      "usuń sprzęt", "usun sprzet", "brak sprzętu", "brak sprzetu"]).any
        (fun k => containsSub ql k) then
    some "what_if"
  else if (["policz", "zlicz", "ile ", "ile ćwicze", "ile cwicze", "ile jest",
      "suma", "średnia", "srednia", "agreg", "filtr", "posort"]).any
        (fun k => containsSub ql k) then
    some "analytics"
  else none

/-- Model of `Agent.run`: coerce the routed tool (forced keyword routing
first, then the router reply, unknown names clamped to `vector_rag`) and
run the bounded loop.  `route` is the parsed first router reply. -/
def agentRun (observe : String → String → String) (reflect : ℕ → ReflectJson)
    (route : RouteJson) (userQuery : String) (maxSteps : ℕ) : LoopResult :=
  let ql := strLower (pyStrip userQuery)
  let intent := pyStrip (pyOrStr route.intent "Answer the user request.")
  let tool0 := (forcedToolFor ql).getD (pyOrStr route.tool "vector_rag")
  let tool1 := if tool0 ∈ agentTools then tool0 else "vector_rag"
  let input0 := pyStrip (pyOrStr route.tool_input userQuery)
  agentSteps observe reflect intent maxSteps 1 tool1 input0 [] 0 ""

/-! ### `AgentFull.run` and `AgentFull._call_tool` (src/core/agent_full.py) -/

/-- Parsed planner reply of `AgentFull.run` (`_safe_json_loads` result when
it is not `None`); `none` fields model missing keys.  The free-form
`tool_input` dict is carried as an opaque string payload. -/
structure PlanJson where
  intent : Option String
  tool : Option String
  tool_input : Option String
  sufficient : Option Bool
  final_answer : Option String
deriving Repr, DecidableEq

/-- One entry of `trace["steps"]` in `AgentFull.run`. -/
structure FullStep where
  step : ℕ
  intent : String
  tool : String
  tool_input : String
  observation : String
deriving Repr, DecidableEq

/-- Result of `AgentFull.run`: the step log, the ACT count, the answer and
the two exit flags (planner parse failure / max-steps synthesis). -/
structure FullResult where
  steps : List FullStep
  acts : ℕ
  answer : String
  parseError : Bool
  stoppedMax : Bool
deriving Repr, DecidableEq

/-- Loop body of `AgentFull.run`.  `planOr` gives the parsed planner reply
of each step (`none` = `_safe_json_loads` failed), `planRaw` the raw reply
text surfaced on a parse failure, `toolObs` the observation string of a
tool execution, and `synth` the final synthesis call on the last
observation. -/
def agentFullSteps (planOr : ℕ → Option PlanJson) (planRaw : ℕ → String)
    (toolObs : ℕ → String → String → String) (synth : String → String) :
    ℕ → ℕ → List FullStep → ℕ → String → FullResult
  | 0, _, acc, acts, lastObs => ⟨acc, acts, synth lastObs, false, true⟩
  | fuel + 1, step, acc, acts, _ =>
    match planOr step with
    | none => ⟨acc, acts, planRaw step, true, false⟩
    | some p =>
      let intent := p.intent.getD ""
      let tool := p.tool.getD "none"
      let input := p.tool_input.getD ""
      let sufficient := p.sufficient.getD false
      let finalAnswer := p.final_answer.getD ""
      if tool == "none" || sufficient then ⟨acc, acts, finalAnswer, false, false⟩
      else
        let obs := toolObs step tool input
        agentFullSteps planOr planRaw toolObs synth fuel (step + 1)
          (acc ++ [⟨step, intent, tool, input, obs⟩]) (acts + 1) obs

/-- Model of `AgentFull.run`: run the loop from step 1 with empty log. -/
def agentFullRun (planOr : ℕ → Option PlanJson) (planRaw : ℕ → String)
    (toolObs : ℕ → String → String → String) (synth : String → String)
    (maxSteps : ℕ) : FullResult :=
  agentFullSteps planOr planRaw toolObs synth maxSteps 1 [] 0 ""

/-- Observation returned by `AgentFull._call_tool`: either a collaborator
output or the error-tagged dict `\x7b"error": ..., "tool_input": ...\x7d`
built by the final fall-through return. -/
inductive ToolObs where
  | ok (payload : String)
  | err (msg : String) (tool_input : String)
deriving Repr, DecidableEq

/-- Tool names with a dedicated branch in `AgentFull._call_tool`. -/
def knownFullTools : List String :=
  ["matcher", "analytics", "what_if", "vector_rag", "graph_rag"]

/-- Model of `AgentFull._call_tool`: the five known tools call their
collaborator (oracle `collab`, given the tool name, the input payload and
the user query); any other name reaches the fall-through line 191 and
returns the error-tagged observation without raising. -/
def callToolFull (collab : String → String → String → String)
    (tool input userQuery : String) : ToolObs :=
  if tool = "matcher" then .ok (collab "matcher" input userQuery)
  else if tool = "analytics" then .ok (collab "analytics" input userQuery)
  else if tool = "what_if" then .ok (collab "what_if" input userQuery)
  else if tool = "vector_rag" then .ok (collab "vector_rag" input userQuery)
  else if tool = "graph_rag" then .ok (collab "graph_rag" input userQuery)
  else .err ("Unknown tool: " ++ tool) input

/-! ### Local graph engine (src/tools/graph_rag.py, `_query_local`)

A `networkx.MultiDiGraph` built by repeated `add_edge` calls is fully
determined by the insertion sequence of (source, relation, target)
triples: node iteration order is first-appearance order (source before
target per edge), successor order is first-edge order, and parallel edges
keep insertion order.  We model the graph as that edge list. -/

/-- One directed edge of the local graph. -/
structure GEdge where
  source : String
  relation : String
  target : String
deriving Repr, DecidableEq

/-- Append `x` to `acc` unless already present (dict-insertion order). -/
def insertNew (acc : List String) (x : String) : List String :=
  if x ∈ acc then acc else acc ++ [x]

/-- Node iteration order of the MultiDiGraph: first appearance in the edge
insertion sequence, source before target. -/
def nodesOf (es : List GEdge) : List String :=
  es.foldl (fun acc e => insertNew (insertNew acc e.source) e.target) []

/-- Keep the first occurrence of each element not already in `seen`. -/
def uniqueKeepAux (seen : List String) : List String → List String
  | [] => []
  | x :: xs => if x ∈ seen then uniqueKeepAux seen xs else x :: uniqueKeepAux (x :: seen) xs

/-- Keep the first occurrence of each element. -/
def uniqueKeep (l : List String) : List String := uniqueKeepAux [] l

/-- Successor iteration order of node `n`: distinct edge targets in
first-edge order (`g.successors(n)`). -/
def successorsOf (es : List GEdge) (n : String) : List String :=
  uniqueKeep ((es.filter (fun e => e.source = n)).map (fun e => e.target))

/-- Relations of the parallel edges from `n` to `m`, in insertion order
(`g.get_edge_data(n, m).items()`). -/
def relationsBetween (es : List GEdge) (n m : String) : List String :=
  (es.filter (fun e => e.source = n && e.target = m)).map (fun e => e.relation)

/-- Neighbours of `n` in the undirected view `g.to_undirected()`. -/
def uNeighbors (es : List GEdge) (n : String) : List String :=
  uniqueKeep ((es.filter (fun e => e.source = n)).map (fun e => e.target) ++
    (es.filter (fun e => e.target = n)).map (fun e => e.source))

/-- Breadth-first search for `t` on the undirected view: the queue holds
paths in reverse, nodes are marked visited when enqueued, and the fuel
bounds the number of dequeues (each node is enqueued at most once). -/
def bfsRun (es : List GEdge) (t : String) :
    ℕ → List (List String) → List String → Option (List String)
  | 0, _, _ => none
  | _ + 1, [], _ => none
  | fuel + 1, path :: queue, visited =>
    match path with
    | [] => bfsRun es t fuel queue visited
    | cur :: _ =>
      if cur = t then some path.reverse
      else
        let fresh := (uNeighbors es cur).filter (fun m => !(visited.contains m))
        bfsRun es t fuel (queue ++ fresh.map (fun m => m :: path)) (visited ++ fresh)

/-- Shortest undirected path from `s` to `t` (`nx.shortest_path` on the
undirected view), or `none` when unreachable. -/
def bfsPath (es : List GEdge) (s t : String) : Option (List String) :=
  bfsRun es t ((nodesOf es).length + 1) [[s]] [s]

/-- Query tokens of `_query_local`: whitespace-split lowercased words with
surrounding punctuation stripped, keeping only tokens longer than 2. -/
def graphTokens (q : String) : List String :=
  ((pySplit (strLower q)).map
    (fun w => strLower (pyStripChars (".,!?;:()[]\x7b\x7d".data) w))).filter
    (fun t => decide (2 < t.length))

/-- Node-match predicate of `_query_local`: some query token is a
case-insensitive substring of the node name. -/
def nodeMatches (tokens : List String) (n : String) : Bool :=
  tokens.any (fun t => containsSub (strLower n) t)

/-- Paths collected for one matched node `s`: iterate the first 50 nodes,
skip `s` itself, and keep shortest undirected paths whose Python length
(number of nodes) lies in `[2, max_hops + 1]`. -/
def pathsForSource (es : List GEdge) (ns : List String) (maxHops : ℕ)
    (s : String) : List (List String) :=
  (ns.take 50).filterMap (fun t =>
    if t = s then none
    else
      match bfsPath es s t with
      | none => none
      | some p => if 2 ≤ p.length ∧ p.length ≤ maxHops + 1 then some p else none)

/-- Path-collection loop of `_query_local`: after each matched node is
processed the loop stops once at least 5 paths have accumulated. -/
def pathsLoop (es : List GEdge) (ns : List String) (maxHops : ℕ) :
    List String → List (List String) → List (List String)
  | [], acc => acc
  | s :: ss, acc =>
    let acc' := acc ++ pathsForSource es ns maxHops s
    if 5 ≤ acc'.length then acc' else pathsLoop es ns maxHops ss acc'

/-- Result dict of `_query_local`. -/
structure GraphOut where
  matched_nodes : List String
  edges : List (String × String × String)
  paths : List (List String)
deriving Repr, DecidableEq

/-- Model of `_query_local(g, query_text, max_hops)`. -/
def queryLocal (es : List GEdge) (queryText : String) (maxHops : ℕ) : GraphOut :=
  let tokens := graphTokens queryText
  let ns := nodesOf es
  let matched := (ns.filter (nodeMatches tokens)).take 5
  let edgesOut := matched.flatMap (fun n =>
    ((successorsOf es n).take 10).flatMap (fun m =>
      (relationsBetween es n m).map (fun r => (n, m, r))))
  let paths := pathsLoop es ns maxHops matched []
  ⟨matched, edgesOut.take 20, paths.take 5⟩

/-! ### TF-IDF retrieval engine (src/gymadvisorai/rag.py, `TfidfStore`)

Python float arithmetic is modelled exactly over `ℝ`.  A per-document
weight dict is an association list in key-insertion order; the
document-frequency dict, which the code reads only via `get(t, 0)` and
increments, is a total function with default 0. -/

/-- Documents kept by `build`: the comprehension
`[d.strip() for d in docs if d and d.strip()]`. -/
def keptDocsF (docs : List String) : List String :=
  docs.filterMap (fun d =>
    if d = "" then none else if pyStrip d = "" then none else some (pyStrip d))

/-- Document-frequency update for one document: every distinct term of the
document (`tf.keys()`) is incremented once. -/
def bumpDf (df : String → ℕ) (ts : List String) : String → ℕ :=
  fun t => if t ∈ ts then df t + 1 else df t

/-- Document-frequency table built by the first pass of `build`. -/
def dfOf (tfs : List (List String)) : String → ℕ :=
  tfs.foldl bumpDf (fun _ => 0)

/-- Document frequency stated extensionally: the number of documents whose
token list contains `t` (used to compare against the incremental table). -/
def dfCount (ds : List String) (t : String) : ℕ :=
  ds.countP (fun d => decide (t ∈ tokenize d))

/-- Smoothed inverse document frequency `ln((N+1)/(df+1)) + 1`. -/
noncomputable def idfVal (N df : ℕ) : ℝ :=
  Real.log (((N : ℝ) + 1) / ((df : ℝ) + 1)) + 1

/-- Weight vector of a token list: each distinct term maps to
`tf(t) * idf(N, df(t))` (the `vec[t] = c * idf` loop of `build`, and the
`q_vec[t] = c * idf` loop of `retrieve`). -/
noncomputable def weightVec (N : ℕ) (df : String → ℕ) (ts : List String) :
    List (String × ℝ) :=
  ts.dedup.map (fun t => (t, (ts.count t : ℝ) * idfVal N (df t)))

/-- Sum of squared values of a weight dict. -/
noncomputable def sumSq (v : List (String × ℝ)) : ℝ :=
  (v.map (fun p => p.2 * p.2)).sum

/-- Python `x or 1.0` on a float: `0.0` is falsy. -/
noncomputable def pyOr1 (x : ℝ) : ℝ := if x = 0 then 1 else x

/-- In-memory state of a `TfidfStore` (the fields `docs`, `df`,
`doc_vecs`, `norms`; the `path` field is configuration handled by the
persistence wrapper). -/
structure TfidfState where
  docs : List String
  df : String → ℕ
  doc_vecs : List (List (String × ℝ))
  norms : List ℝ

/-- Contents of the pickled snapshot dict written by `build` and read by
`load`: exactly the four state fields.  Pickle serialisation of these
values is lossless, so the snapshot is modelled by the values themselves. -/
structure TfidfSnapshot where
  docs : List String
  df : String → ℕ
  doc_vecs : List (List (String × ℝ))
  norms : List ℝ

/-- Model of `TfidfStore.build`: filter and strip the documents, build the
document-frequency table, then each document's weight vector and norm
(with `sqrt(...) or 1.0`). -/
noncomputable def buildState (docs : List String) : TfidfState :=
  let ds := keptDocsF docs
  let tfs := ds.map tokenize
  let df := dfOf tfs
  let vecs := tfs.map (weightVec ds.length df)
  ⟨ds, df, vecs, vecs.map (fun v => pyOr1 (Real.sqrt (sumSq v)))⟩

/-- Snapshot written at the end of `build` (the `pickle.dump` dict). -/
def saveSnap (st : TfidfState) : TfidfSnapshot :=
  ⟨st.docs, st.df, st.doc_vecs, st.norms⟩

/-- Model of `TfidfStore.load`: restore the four fields from a snapshot. -/
def loadState (sn : TfidfSnapshot) : TfidfState :=
  ⟨sn.docs, sn.df, sn.doc_vecs, sn.norms⟩

/-- Query weight vector of `retrieve`: same weight formula, with `N` the
stored corpus size and the **stored** document-frequency table (read via
`self.df.get(t, 0)`). -/
noncomputable def queryVec (st : TfidfState) (q : String) : List (String × ℝ) :=
  weightVec st.docs.length st.df (tokenize q)

/-- Dot product of `retrieve`: over the query's distinct terms, adding
`q_vec[t] * dvec[t]` whenever `t` is a key of the document vector. -/
noncomputable def dotQ (qv dv : List (String × ℝ)) : ℝ :=
  (qv.map (fun p =>
    match List.lookup p.1 dv with
    | some w => p.2 * w
    | none => 0)).sum

/-- Scored list of `retrieve`: for each document index `i`, the pair
`(dot / (q_norm * (norms[i] or 1.0)), i)`. -/
noncomputable def scoredList (st : TfidfState) (q : String) : List (ℝ × ℕ) :=
  let qv := queryVec st q
  let qn := pyOr1 (Real.sqrt (sumSq qv))
  st.doc_vecs.enum.map (fun p =>
    (dotQ qv p.2 / (qn * pyOr1 (st.norms.getD p.1 0)), p.1))

/-- Descending lexicographic order on `(score, index)` pairs: exactly the
order in which Python `scored.sort(reverse=True)` lays out distinct
tuples. -/
def lexGe (a b : ℝ × ℕ) : Prop :=
  b.1 < a.1 ∨ (a.1 = b.1 ∧ b.2 ≤ a.2)

instance : IsTotal (ℝ × ℕ) lexGe :=
  ⟨fun a b => by
    rcases lt_trichotomy a.1 b.1 with h | h | h
    · exact Or.inr (Or.inl h)
    · rcases Nat.le_total b.2 a.2 with h2 | h2
      · exact Or.inl (Or.inr ⟨h, h2⟩)
      · exact Or.inr (Or.inr ⟨h.symm, h2⟩)
    · exact Or.inl (Or.inl h)⟩

instance : IsTrans (ℝ × ℕ) lexGe :=
  ⟨fun a b c hab hbc => by
    rcases hab with h1 | ⟨e1, l1⟩
    · rcases hbc with h2 | ⟨e2, _⟩
      · exact Or.inl (h2.trans h1)
      · exact Or.inl (e2 ▸ h1)
    · rcases hbc with h2 | ⟨e2, l2⟩
      · exact Or.inl (e1 ▸ h2)
      · exact Or.inr ⟨e1.trans e2, l2.trans l1⟩⟩

/-- Sorting step of `retrieve` (`scored.sort(reverse=True)`): since all
`(score, index)` tuples are distinct and `lexGe` is a total order, the
result is the unique `lexGe`-sorted permutation, which is what any correct
sort (stable or not) produces. -/
noncomputable def sortScored (l : List (ℝ × ℕ)) : List (ℝ × ℕ) :=
  @List.insertionSort _ lexGe (Classical.decRel _) l

/-- Score/index pairs surviving `scored[:k]` and the `s > 0` filter. -/
noncomputable def retrievePairs (st : TfidfState) (q : String) (k : ℕ) :
    List (ℝ × ℕ) :=
  ((sortScored (scoredList st q)).take k).filter (fun p => decide (0 < p.1))

/-- Documents returned by the core of `retrieve` (after the optional
on-demand load). -/
noncomputable def retrieveCore (st : TfidfState) (q : String) (k : ℕ) :
    List String :=
  (retrievePairs st q k).map (fun p => st.docs.getD p.2 "")

/-- Model of `TfidfStore.retrieve` including the `if not self.docs:
self.load()` preamble: with an empty in-memory document list the state is
reloaded from the on-disk snapshot (`FileNotFoundError` when absent). -/
noncomputable def retrievePy (st : TfidfState) (disk : Option TfidfSnapshot)
    (q : String) (k : ℕ) : Except String (List String) :=
  if st.docs.isEmpty then
    match disk with
    | none => .error "TF-IDF store not found"
    | some sn => .ok (retrieveCore (loadState sn) q k)
  else .ok (retrieveCore st q k)

/-! ## Theorems -/

/-! ### List helpers -/

theorem takeLastN_eq_reverse (n : ℕ) (l : List α) :
    takeLastN n l = (l.reverse.take n).reverse := by
  show l.rtake n = (l.reverse.take n).reverse
  exact List.rtake_eq_reverse_take_reverse l n

theorem takeLastN_append_takeLastN (n : ℕ) (l r : List α) :
    takeLastN n (takeLastN n l ++ r) = takeLastN n (l ++ r) := by
  rw [takeLastN_eq_reverse, takeLastN_eq_reverse, takeLastN_eq_reverse,
    List.reverse_append, List.reverse_append, List.reverse_reverse,
    List.take_append_eq_append_take, List.take_append_eq_append_take, List.take_take]
  have h : min (n - r.reverse.length) n = n - r.reverse.length :=
    Nat.min_eq_left (Nat.sub_le n _)
  rw [h]

theorem takeLastN_takeLastN (m n : ℕ) (l : List α) (h : m ≤ n) :
    takeLastN m (takeLastN n l) = takeLastN m l := by
  rw [takeLastN_eq_reverse, takeLastN_eq_reverse, takeLastN_eq_reverse,
    List.reverse_reverse, List.take_take, Nat.min_eq_left h]

theorem takeLastN_length_le (n : ℕ) (l : List α) : (takeLastN n l).length ≤ n := by
  simp only [takeLastN, List.length_drop]
  omega

theorem takeLastN_isEmpty (n : ℕ) (l : List α) (hn : 0 < n) :
    (takeLastN n l).isEmpty = l.isEmpty := by
  cases l with
  | nil => simp [takeLastN]
  | cons a as =>
    have hlen : (takeLastN n (a :: as)).length
        = (a :: as).length - ((a :: as).length - n) := by
      simp [takeLastN]
    have h1 : ¬ ((takeLastN n (a :: as)).length = 0) := by
      rw [hlen]; simp only [List.length_cons]; omega
    have h2 : ¬ ((takeLastN n (a :: as)) = []) := by
      intro he; exact h1 (by rw [he]; rfl)
    simp [List.isEmpty_iff, h2]

/-! ### Memory (C10) -/

theorem memAddAll_turns_aux (ops : List (String × String)) :
    ∀ l : List (String × String),
      (memAddAll ⟨takeLastN 8 l⟩ ops).turns = takeLastN 8 (l ++ ops) := by
  induction ops with
  | nil => intro l; simp [memAddAll]
  | cons p ops ih =>
    intro l
    have h1 : memAdd ⟨takeLastN 8 l⟩ p.1 p.2 = ⟨takeLastN 8 (l ++ [p])⟩ := by
      simp only [memAdd, takeLastN_append_takeLastN]
    have h2 : memAddAll ⟨takeLastN 8 l⟩ (p :: ops)
        = memAddAll ⟨takeLastN 8 (l ++ [p])⟩ ops := by
      simp only [memAddAll, List.foldl_cons, h1]
    rw [h2, ih (l ++ [p])]
    simp

/-- C10: starting from an empty memory, any sequence of `Memory.add` calls
leaves exactly the most recent 8 (question, answer) turns stored, and
`Memory.as_text` flattens only the most recent 6 of the added turns (so
with 7 or 8 turns stored, the oldest one or two are omitted from the
transcript). -/
theorem memory_retention_and_flatten (ops : List (String × String)) :
    (memAddAll ⟨[]⟩ ops).turns = takeLastN 8 ops ∧
    (memAddAll ⟨[]⟩ ops).turns.length ≤ 8 ∧
    memAsText (memAddAll ⟨[]⟩ ops) =
      (if ops.isEmpty then ""
       else String.intercalate "\n" (turnLines (takeLastN 6 ops))) := by
  have hturns : (memAddAll ⟨[]⟩ ops).turns = takeLastN 8 ops := by
    have := memAddAll_turns_aux ops []
    simpa [takeLastN] using this
  refine ⟨hturns, ?_, ?_⟩
  · rw [hturns]; exact takeLastN_length_le 8 ops
  · rw [memAsText, hturns, takeLastN_isEmpty 8 ops (by omega),
      takeLastN_takeLastN 6 8 ops (by omega)]

/-! ### Planner/Reflector loop bounds (C1) and fail-open reflection (C6) -/

theorem actInc_le_one (tool : String) : actInc tool ≤ 1 := by
  rw [actInc]; split <;> omega

theorem agentSteps_bound (observe : String → String → String)
    (reflect : ℕ → ReflectJson) (intent : String) :
    ∀ fuel step tool input acc acts lastObs,
      (agentSteps observe reflect intent fuel step tool input acc acts lastObs).trace.length
          ≤ acc.length + fuel ∧
      (agentSteps observe reflect intent fuel step tool input acc acts lastObs).acts
          ≤ acts + fuel := by
  intro fuel
  induction fuel with
  | zero =>
    intro step tool input acc acts lastObs
    simp [agentSteps]
  | succ n ih =>
    intro step tool input acc acts lastObs
    have hact := actInc_le_one tool
    rw [agentSteps]
    split
    · constructor
      · simp only [List.length_append, List.length_cons, List.length_nil]
        omega
      · simp only []
        omega
    · have hrec := ih (step + 1)
        (if pyOrStr (reflect step).next_tool "none" ∈ agentTools then
          pyOrStr (reflect step).next_tool "none" else "vector_rag")
        (if pyStrip (pyOrStr (reflect step).next_tool_input "") = "" then input
          else pyStrip (pyOrStr (reflect step).next_tool_input ""))
        (acc ++ [⟨step, intent, tool, input, dispatchObs observe tool input,
          pyOrStr (some (pyStrip (pyOrStr (reflect step).reflection ""))) "OK."⟩])
        (acts + actInc tool) (dispatchObs observe tool input)
      constructor
      · refine le_trans hrec.1 ?_
        simp only [List.length_append, List.length_cons, List.length_nil]
        omega
      · refine le_trans hrec.2 ?_
        omega

theorem agentFullSteps_bound (planOr : ℕ → Option PlanJson) (planRaw : ℕ → String)
    (toolObs : ℕ → String → String → String) (synth : String → String) :
    ∀ fuel step acc acts lastObs,
      (agentFullSteps planOr planRaw toolObs synth fuel step acc acts lastObs).steps.length
          ≤ acc.length + fuel ∧
      (agentFullSteps planOr planRaw toolObs synth fuel step acc acts lastObs).acts
          ≤ acts + fuel := by
  intro fuel
  induction fuel with
  | zero =>
    intro step acc acts lastObs
    simp [agentFullSteps]
  | succ n ih =>
    intro step acc acts lastObs
    rw [agentFullSteps]
    cases hplan : planOr step with
    | none => simp
    | some p =>
      simp only []
      split
      · simp
      · have hrec := ih (step + 1)
          (acc ++ [⟨step, p.intent.getD "", p.tool.getD "none", p.tool_input.getD "",
            toolObs step (p.tool.getD "none") (p.tool_input.getD "")⟩])
          (acts + 1) (toolObs step (p.tool.getD "none") (p.tool_input.getD ""))
        constructor
        · refine le_trans hrec.1 ?_
          simp only [List.length_append, List.length_cons, List.length_nil]
          omega
        · refine le_trans hrec.2 ?_
          omega

/-- C1: for every user query, router reply, and sequence of language-model
reflection/planner replies, one run of the Planner/Reflector loop executes
at most `max_steps` ACT phases (tool executions), and the step trace
returned in the result has length at most `max_steps` — both for
`Agent.run` and for `AgentFull.run`. -/
theorem agent_loop_bounded (observe : String → String → String)
    (reflect : ℕ → ReflectJson) (route : RouteJson) (userQuery : String)
    (planOr : ℕ → Option PlanJson) (planRaw : ℕ → String)
    (toolObs : ℕ → String → String → String) (synth : String → String)
    (maxSteps : ℕ) :
    (agentRun observe reflect route userQuery maxSteps).trace.length ≤ maxSteps ∧
    (agentRun observe reflect route userQuery maxSteps).acts ≤ maxSteps ∧
    (agentFullRun planOr planRaw toolObs synth maxSteps).steps.length ≤ maxSteps ∧
    (agentFullRun planOr planRaw toolObs synth maxSteps).acts ≤ maxSteps := by
  have h1 := agentSteps_bound observe reflect
    (pyStrip (pyOrStr route.intent "Answer the user request."))
    maxSteps 1
    (if ((forcedToolFor (strLower (pyStrip userQuery))).getD
          (pyOrStr route.tool "vector_rag")) ∈ agentTools then
      ((forcedToolFor (strLower (pyStrip userQuery))).getD
          (pyOrStr route.tool "vector_rag")) else "vector_rag")
    (pyStrip (pyOrStr route.tool_input userQuery)) [] 0 ""
  have h2 := agentFullSteps_bound planOr planRaw toolObs synth maxSteps 1 [] 0 ""
  refine ⟨?_, ?_, ?_, ?_⟩
  · simpa [agentRun] using h1.1
  · simpa [agentRun] using h1.2
  · simpa [agentFullRun] using h2.1
  · simpa [agentFullRun] using h2.2

/-- C6: when the reflection reply of the current step is unparsable (the
empty dict from `_parse_json`), the verdict defaults to sufficient with
the generic reflection note "OK." and the loop terminates at that step,
returning the trace extended by exactly this one step. -/
theorem reflect_unparsable_fail_open (observe : String → String → String)
    (reflect : ℕ → ReflectJson) (intent : String) (fuel step : ℕ)
    (tool input : String) (acc : List TraceStep) (acts : ℕ) (lastObs : String)
    (h : reflect step = emptyReflect) :
    agentSteps observe reflect intent (fuel + 1) step tool input acc acts lastObs
      = ⟨acc ++ [⟨step, intent, tool, input, dispatchObs observe tool input, "OK."⟩],
          acts + actInc tool, dispatchObs observe tool input⟩ := by
  rw [agentSteps, h]
  simp [emptyReflect, pyOrStr, pyStrip]

/-- Concrete instance of `reflect_unparsable_fail_open`: a run whose first
reflection is unparsable stops after one step with the generic note. -/
theorem reflect_unparsable_fail_open_witness :
    agentSteps (fun _ _ => "obs") (fun _ => emptyReflect) "find info" 3 1
        "vector_rag" "query" [] 0 ""
      = ⟨[⟨1, "find info", "vector_rag", "query",
            dispatchObs (fun _ _ => "obs") "vector_rag" "query", "OK."⟩],
          0 + actInc "vector_rag", dispatchObs (fun _ _ => "obs") "vector_rag" "query"⟩ :=
  reflect_unparsable_fail_open (fun _ _ => "obs") (fun _ => emptyReflect)
    "find info" 2 1 "vector_rag" "query" [] 0 "" rfl

/-! ### Unknown tool dispatch (C7) -/

/-- C7: dispatching any tool name without a dedicated branch in
`AgentFull._call_tool` returns the error-tagged observation naming the
unrecognized tool (the function is total: it returns instead of raising). -/
theorem unknown_tool_tagged (collab : String → String → String → String)
    (tool input userQuery : String) (h : ¬ (tool ∈ knownFullTools)) :
    callToolFull collab tool input userQuery
      = .err ("Unknown tool: " ++ tool) input := by
  simp only [knownFullTools, List.mem_cons, List.not_mem_nil, or_false, not_or] at h
  obtain ⟨h1, h2, h3, h4, h5⟩ := h
  simp [callToolFull, h1, h2, h3, h4, h5]

/-- Concrete instance of `unknown_tool_tagged` at the spec scenario name
"unknown_tool". -/
theorem unknown_tool_tagged_witness :
    callToolFull (fun _ _ _ => "") "unknown_tool" "x" "q"
      = .err ("Unknown tool: " ++ "unknown_tool") "x" :=
  unknown_tool_tagged (fun _ _ _ => "") "unknown_tool" "x" "q" (by decide)

/-! ### Local graph engine caps (C8) and path-length window (C3) -/

/-- C8: every local graph query returns at most 5 matched nodes — exactly
the first 5 matches in node iteration order — at most 20 evidence edges,
and at most 5 paths. -/
theorem graph_query_caps (es : List GEdge) (q : String) (maxHops : ℕ) :
    (queryLocal es q maxHops).matched_nodes.length ≤ 5 ∧
    (queryLocal es q maxHops).edges.length ≤ 20 ∧
    (queryLocal es q maxHops).paths.length ≤ 5 ∧
    (queryLocal es q maxHops).matched_nodes
      = ((nodesOf es).filter (nodeMatches (graphTokens q))).take 5 := by
  refine ⟨?_, ?_, ?_, rfl⟩ <;>
    · simp only [queryLocal, List.length_take]
      omega

theorem pathsForSource_mem (es : List GEdge) (ns : List String) (maxHops : ℕ)
    (s : String) (p : List String) (hp : p ∈ pathsForSource es ns maxHops s) :
    2 ≤ p.length ∧ p.length ≤ maxHops + 1 := by
  simp only [pathsForSource, List.mem_filterMap] at hp
  obtain ⟨t, _, hf⟩ := hp
  by_cases hts : t = s
  · rw [if_pos hts] at hf; cases hf
  · rw [if_neg hts] at hf
    cases hb : bfsPath es s t with
    | none => rw [hb] at hf; cases hf
    | some pp =>
      rw [hb] at hf
      dsimp only at hf
      by_cases hc : 2 ≤ pp.length ∧ pp.length ≤ maxHops + 1
      · rw [if_pos hc] at hf
        injection hf with hppp
        rw [← hppp]
        exact hc
      · rw [if_neg hc] at hf; cases hf

theorem pathsLoop_mem (es : List GEdge) (ns : List String) (maxHops : ℕ) :
    ∀ (ss : List String) (acc : List (List String)),
      (∀ p ∈ acc, 2 ≤ p.length ∧ p.length ≤ maxHops + 1) →
      ∀ p ∈ pathsLoop es ns maxHops ss acc, 2 ≤ p.length ∧ p.length ≤ maxHops + 1 := by
  intro ss
  induction ss with
  | nil => intro acc hacc p hp; exact hacc p hp
  | cons s ss ih =>
    intro acc hacc p hp
    rw [pathsLoop] at hp
    have hacc' : ∀ x ∈ acc ++ pathsForSource es ns maxHops s,
        2 ≤ x.length ∧ x.length ≤ maxHops + 1 := by
      intro x hx
      rcases List.mem_append.mp hx with hx | hx
      · exact hacc x hx
      · exact pathsForSource_mem es ns maxHops s x hx
    by_cases hlen : 5 ≤ (acc ++ pathsForSource es ns maxHops s).length
    · rw [if_pos hlen] at hp
      exact hacc' p hp
    · rw [if_neg hlen] at hp
      exact ih (acc ++ pathsForSource es ns maxHops s) hacc' p hp

/-- C3 (amended): every path returned by the local graph query has a node
count in `[2, max_hops + 1]`, i.e. a hop count in `[1, max_hops]` — the
code filters on `len(p)`, the number of nodes, not on the hop count. -/
theorem graph_path_window (es : List GEdge) (q : String) (maxHops : ℕ)
    (p : List String) (hp : p ∈ (queryLocal es q maxHops).paths) :
    2 ≤ p.length ∧ p.length ≤ maxHops + 1 := by
  simp only [queryLocal] at hp
  exact pathsLoop_mem es (nodesOf es) maxHops
    (((nodesOf es).filter (nodeMatches (graphTokens q))).take 5) []
    (by intro x hx; cases hx) p (List.mem_of_mem_take hp)

/-- Concrete instance of `graph_path_window` on a one-edge graph. -/
theorem graph_path_window_witness :
    2 ≤ (["abc", "xyz"] : List String).length ∧
      (["abc", "xyz"] : List String).length ≤ 2 + 1 :=
  graph_path_window [⟨"abc", "rel", "xyz"⟩] "abc find" 2 ["abc", "xyz"] (by decide)

/-- Counterexample to C3 as stated: on the one-edge graph `abc -rel-> xyz`
the query "abc find" with `max_hops = 2` returns the two-node path
`[abc, xyz]`, whose hop count is 1, outside the claimed window `[2, 3]`. -/
theorem graph_path_hop_counterexample :
    (queryLocal [⟨"abc", "rel", "xyz"⟩] "abc find" 2).paths = [["abc", "xyz"]] ∧
    ¬ (2 ≤ (["abc", "xyz"] : List String).length - 1) := by
  constructor
  · decide
  · decide

/-! ### TF-IDF engine theorems (C2, C4, C5, C9) -/

/-- C4: building the index, persisting the snapshot, loading it into a
fresh store and querying yields exactly the same result as querying the
in-memory store right after `build` (the snapshot carries the four state
fields losslessly). -/
theorem tfidf_roundtrip (docs : List String) (q : String) (k : ℕ) :
    loadState (saveSnap (buildState docs)) = buildState docs ∧
    retrievePy (loadState (saveSnap (buildState docs)))
        (some (saveSnap (buildState docs))) q k
      = retrievePy (buildState docs) (some (saveSnap (buildState docs))) q k :=
  ⟨rfl, rfl⟩

theorem buildState_empty : buildState [] = ⟨[], fun _ => 0, [], []⟩ := rfl

theorem retrieveCore_no_vecs (st : TfidfState) (h : st.doc_vecs = []) (q : String) (k : ℕ) :
    retrieveCore st q k = [] := by
  simp [retrieveCore, retrievePairs, sortScored, scoredList, h]

theorem retrievePy_empty_build (q : String) (k : ℕ) :
    retrievePy (buildState []) (some (saveSnap (buildState []))) q k = Except.ok [] := by
  rw [retrievePy]
  rw [if_pos (by rw [buildState_empty]; rfl)]
  rw [retrieveCore_no_vecs _ (by rw [buildState_empty]; rfl)]

theorem sortScored_perm (l : List (ℝ × ℕ)) : (sortScored l).Perm l :=
  @List.perm_insertionSort _ lexGe (Classical.decRel _) l

theorem sortScored_sorted (l : List (ℝ × ℕ)) : List.Pairwise lexGe (sortScored l) :=
  @List.sorted_insertionSort _ lexGe (Classical.decRel _) _ _ l

theorem queryVec_no_tokens (st : TfidfState) (q : String) (h : tokenize q = []) :
    queryVec st q = [] := by
  simp [queryVec, weightVec, h]

theorem dotQ_nil (dv : List (String × ℝ)) : dotQ [] dv = 0 := by simp [dotQ]

theorem scoredList_zero_no_tokens (st : TfidfState) (q : String)
    (h : tokenize q = []) : ∀ x ∈ scoredList st q, x.1 = (0:ℝ) := by
  intro x hx
  simp only [scoredList, List.mem_map] at hx
  obtain ⟨p, _, hpe⟩ := hx
  rw [← hpe]
  simp [queryVec_no_tokens st q h, dotQ_nil]

theorem retrievePairs_all_zero (st : TfidfState) (q : String) (k : ℕ)
    (h : ∀ x ∈ scoredList st q, x.1 = (0:ℝ)) :
    retrievePairs st q k = [] := by
  rw [retrievePairs]
  apply List.filter_eq_nil_iff.mpr
  intro p hp
  have hmem : p ∈ sortScored (scoredList st q) := List.mem_of_mem_take hp
  have hms : p ∈ scoredList st q := (sortScored_perm _).mem_iff.mp hmem
  simp [h p hms]

theorem retrieveCore_of_pairs_nil (st : TfidfState) (q : String) (k : ℕ)
    (h : retrievePairs st q k = []) : retrieveCore st q k = [] := by
  simp [retrieveCore, h]

theorem lookup_map_pair_none (t : String) (f : String → ℝ) (ts : List String)
    (h : ¬ (t ∈ ts)) : List.lookup t (ts.map (fun s => (s, f s))) = none := by
  induction ts with
  | nil => rfl
  | cons a as ih =>
    have hat : ¬ (t = a) := fun he => h (he ▸ List.mem_cons_self a as)
    have hb : (t == a) = false := by simpa using hat
    simp only [List.map, List.lookup, hb]
    exact ih (fun hm => h (List.mem_cons_of_mem a hm))

theorem dotQ_zero_of_disjoint (qv dv : List (String × ℝ))
    (h : ∀ p ∈ qv, List.lookup p.1 dv = none) : dotQ qv dv = 0 := by
  rw [dotQ]
  apply List.sum_eq_zero
  intro x hx
  simp only [List.mem_map] at hx
  obtain ⟨p, hp, he⟩ := hx
  rw [← he, h p hp]

theorem buildState_doc_vecs (docs : List String) :
    (buildState docs).doc_vecs
      = (keptDocsF docs).map (fun d =>
          weightVec (keptDocsF docs).length
            (dfOf ((keptDocsF docs).map tokenize)) (tokenize d)) := by
  simp only [buildState, List.map_map]
  rfl

theorem scoredList_zero_disjoint (docs : List String) (q : String)
    (h : ∀ t ∈ tokenize q, ∀ d ∈ (buildState docs).docs, ¬ (t ∈ tokenize d)) :
    ∀ x ∈ scoredList (buildState docs) q, x.1 = (0:ℝ) := by
  intro x hx
  simp only [scoredList, List.mem_map] at hx
  obtain ⟨p, hp, hpe⟩ := hx
  rw [← hpe]
  have hdv : p.2 ∈ (buildState docs).doc_vecs := by
    have h2 := List.mem_enum_iff_getElem?.mp hp
    exact List.getElem?_mem h2
  rw [buildState_doc_vecs docs] at hdv
  simp only [List.mem_map] at hdv
  obtain ⟨d, hd, hde⟩ := hdv
  have hzero : dotQ (queryVec (buildState docs) q) p.2 = 0 := by
    apply dotQ_zero_of_disjoint
    intro pr hpr
    simp only [queryVec, weightVec, List.mem_map] at hpr
    obtain ⟨t, ht, hte⟩ := hpr
    have ht1 : pr.1 = t := by rw [← hte]
    have htq : t ∈ tokenize q := List.mem_dedup.mp ht
    have hnd : ¬ (t ∈ tokenize d) := h t htq d (by
      rw [show (buildState docs).docs = keptDocsF docs from rfl]
      exact hd)
    rw [ht1, ← hde]
    rw [weightVec]
    exact lookup_map_pair_none t _ _ (fun hm => hnd (List.mem_dedup.mp hm))
  rw [hzero]
  simp

/-- C9: building from an empty collection produces an empty,
still-loadable index whose queries return the empty result, and a query
with no recognized tokens, or sharing no terms with any indexed document,
returns an empty result (no exception path is taken). -/
theorem tfidf_degenerate_inputs :
    buildState [] = ⟨[], fun _ => 0, [], []⟩ ∧
    loadState (saveSnap (buildState [])) = buildState [] ∧
    (∀ q k, retrievePy (buildState []) (some (saveSnap (buildState []))) q k
        = Except.ok []) ∧
    (∀ docs q k, tokenize q = [] → retrieveCore (buildState docs) q k = []) ∧
    (∀ docs q k,
      (∀ t ∈ tokenize q, ∀ d ∈ (buildState docs).docs, ¬ (t ∈ tokenize d)) →
      retrieveCore (buildState docs) q k = []) := by
  refine ⟨rfl, rfl, retrievePy_empty_build, ?_, ?_⟩
  · intro docs q k h
    exact retrieveCore_of_pairs_nil _ _ _
      (retrievePairs_all_zero _ _ _ (scoredList_zero_no_tokens _ _ h))
  · intro docs q k h
    exact retrieveCore_of_pairs_nil _ _ _
      (retrievePairs_all_zero _ _ _ (scoredList_zero_disjoint _ _ h))

/-- Concrete instances of `tfidf_degenerate_inputs`: empty corpus, a
token-free query, and a query sharing no terms with the corpus. -/
theorem tfidf_degenerate_inputs_witness :
    retrievePy (buildState []) (some (saveSnap (buildState []))) "chest" 5
        = Except.ok [] ∧
    retrieveCore (buildState ["aa bb"]) "!!!" 3 = [] ∧
    retrieveCore (buildState ["aa bb"]) "zz" 3 = [] :=
  ⟨tfidf_degenerate_inputs.2.2.1 "chest" 5,
   tfidf_degenerate_inputs.2.2.2.1 ["aa bb"] "!!!" 3 (by decide),
   tfidf_degenerate_inputs.2.2.2.2 ["aa bb"] "zz" 3 (by decide)⟩

theorem dfOf_eq_countP (tfs : List (List String)) :
    ∀ (f : String → ℕ) (t : String),
      (tfs.foldl bumpDf f) t = f t + tfs.countP (fun ts => decide (t ∈ ts)) := by
  induction tfs with
  | nil => intro f t; simp
  | cons ts tfs ih =>
    intro f t
    rw [List.foldl_cons, ih (bumpDf f ts) t, List.countP_cons]
    by_cases hm : t ∈ ts
    · simp [bumpDf, hm]
      omega
    · simp [bumpDf, hm]

theorem buildState_df (docs : List String) (t : String) :
    (buildState docs).df t = dfCount (keptDocsF docs) t := by
  have h1 : (buildState docs).df = dfOf ((keptDocsF docs).map tokenize) := rfl
  rw [h1, dfOf, dfOf_eq_countP, dfCount, List.countP_map]
  simp only [Nat.zero_add]
  rfl

theorem dfOf_tokenize_eq (ds : List String) (t : String) :
    dfOf (ds.map tokenize) t = dfCount ds t := by
  rw [dfOf, dfOf_eq_countP, dfCount, List.countP_map]
  simp only [Nat.zero_add]
  rfl

/-- C5 (amended): `build` assigns each term `t` of each kept document the
weight `tf(t,d) * (ln((N+1)/(df(t)+1)) + 1)` with `df` the number of kept
documents containing `t`, and stores each document's weight vector
together with its Euclidean norm except that a zero norm is stored as
`1.0`; `retrieve` computes the query's weight vector from the **stored**
document frequencies. -/
theorem tfidf_build_weights (docs : List String) :
    (∀ t, (buildState docs).df t = dfCount (buildState docs).docs t) ∧
    (buildState docs).doc_vecs
      = (buildState docs).docs.map (fun d =>
          (tokenize d).dedup.map (fun t =>
            (t, ((tokenize d).count t : ℝ) *
              (Real.log ((((buildState docs).docs.length : ℝ) + 1) /
                ((dfCount (buildState docs).docs t : ℝ) + 1)) + 1)))) ∧
    (buildState docs).norms
      = (buildState docs).doc_vecs.map (fun v =>
          if Real.sqrt (sumSq v) = 0 then 1 else Real.sqrt (sumSq v)) ∧
    (∀ (st : TfidfState) (q : String),
      queryVec st q
        = (tokenize q).dedup.map (fun t =>
            (t, ((tokenize q).count t : ℝ) *
              (Real.log (((st.docs.length : ℝ) + 1) / ((st.df t : ℝ) + 1)) + 1)))) := by
  refine ⟨fun t => dfOf_tokenize_eq (keptDocsF docs) t, ?_, rfl, fun st q => rfl⟩
  rw [buildState_doc_vecs]
  have hdocs : (buildState docs).docs = keptDocsF docs := rfl
  rw [hdocs]
  apply List.map_congr_left
  intro d _
  rw [weightVec]
  apply List.map_congr_left
  intro t _
  rw [idfVal, dfOf_tokenize_eq]

/-- Counterexample to C5 as stated: for the corpus `["!!!"]` (a kept
document with no tokens) the stored norm is `1.0` while the Euclidean norm
of its weight vector is `0`, so `build` does not always store the
Euclidean norm. -/
theorem tfidf_norm_counterexample :
    (buildState ["!!!"]).norms = [1] ∧
    ((buildState ["!!!"]).doc_vecs.map (fun v => Real.sqrt (sumSq v))) = [0] ∧
    (1 : ℝ) ≠ 0 := by
  have h1 : keptDocsF ["!!!"] = ["!!!"] := by decide
  have h2 : tokenize "!!!" = [] := by decide
  refine ⟨?_, ?_, one_ne_zero⟩
  · simp [buildState, h1, h2, weightVec, sumSq, pyOr1, Real.sqrt_zero]
  · simp [buildState, h1, h2, weightVec, sumSq, Real.sqrt_zero]

theorem map_snd_enum_score {α : Type} (g : ℕ × α → ℝ) (l : List α) :
    ((l.enum.map (fun p => (g p, p.1))).map Prod.snd) = List.range l.length := by
  rw [List.map_map]
  have h : (Prod.snd ∘ fun p : ℕ × α => (g p, p.1)) = Prod.fst := rfl
  rw [h, List.enum_map_fst]

theorem scoredList_map_snd (st : TfidfState) (q : String) :
    (scoredList st q).map Prod.snd = List.range st.doc_vecs.length := by
  simp only [scoredList]
  exact map_snd_enum_score _ _

theorem retrievePairs_sublist (st : TfidfState) (q : String) (k : ℕ) :
    List.Sublist (retrievePairs st q k) (sortScored (scoredList st q)) := by
  rw [retrievePairs]
  exact (List.filter_sublist _).trans (List.take_sublist _ _)

theorem retrievePairs_sorted (st : TfidfState) (q : String) (k : ℕ) :
    List.Pairwise (fun a b : ℝ × ℕ => b.1 < a.1 ∨ (a.1 = b.1 ∧ b.2 < a.2))
      (retrievePairs st q k) := by
  have hsub := retrievePairs_sublist st q k
  have h1 : List.Pairwise lexGe (retrievePairs st q k) :=
    List.Pairwise.sublist hsub (sortScored_sorted _)
  have hnd : ((sortScored (scoredList st q)).map Prod.snd).Nodup := by
    have hperm : ((sortScored (scoredList st q)).map Prod.snd).Perm
        ((scoredList st q).map Prod.snd) := (sortScored_perm _).map _
    apply hperm.nodup_iff.mpr
    rw [scoredList_map_snd]
    exact List.nodup_range _
  have h2 : List.Pairwise (fun a b : ℝ × ℕ => ¬ (a.2 = b.2))
      (sortScored (scoredList st q)) := List.pairwise_map.mp hnd
  have h2s := List.Pairwise.sublist hsub h2
  refine (h1.and h2s).imp ?_
  intro a b hab
  rcases hab with ⟨hge, hne⟩
  rcases hge with hlt | hpair
  · exact Or.inl hlt
  · exact Or.inr ⟨hpair.1, lt_of_le_of_ne hpair.2 (fun h => hne h.symm)⟩

/-- C2 (amended): on every built document set, `retrieve(q, k)` returns at
most `k` documents, each backed by a strictly positive similarity score,
ordered by strictly descending score with ties between equal scores broken
by **descending** insertion order (later documents first). -/
theorem tfidf_retrieve_ordered (docs : List String) (q : String) (k : ℕ) :
    (retrieveCore (buildState docs) q k).length ≤ k ∧
    (∀ p ∈ retrievePairs (buildState docs) q k, 0 < p.1) ∧
    List.Pairwise (fun a b : ℝ × ℕ => b.1 < a.1 ∨ (a.1 = b.1 ∧ b.2 < a.2))
      (retrievePairs (buildState docs) q k) ∧
    retrieveCore (buildState docs) q k
      = (retrievePairs (buildState docs) q k).map
          (fun p => (buildState docs).docs.getD p.2 "") := by
  refine ⟨?_, ?_, retrievePairs_sorted _ _ _, rfl⟩
  · rw [retrieveCore, List.length_map, retrievePairs]
    calc (((sortScored (scoredList (buildState docs) q)).take k).filter
            (fun p => decide (0 < p.1))).length
        ≤ ((sortScored (scoredList (buildState docs) q)).take k).length :=
          List.length_filter_le _ _
      _ ≤ k := by rw [List.length_take]; exact Nat.min_le_left _ _
  · intro p hp
    rw [retrievePairs] at hp
    exact of_decide_eq_true (List.mem_filter.mp hp).2

/-- Concrete instance of `tfidf_retrieve_ordered`. -/
theorem tfidf_retrieve_ordered_witness :
    (retrieveCore (buildState ["aa bb", "bb aa"]) "aa" 3).length ≤ 3 :=
  (tfidf_retrieve_ordered ["aa bb", "bb aa"] "aa" 3).1

/-- Counterexample to C2 as stated: the two distinct documents
`"aa bb"` and `"bb aa"` receive the same score `1/sqrt 2` for the query
`"aa"`, and `retrieve` returns them in **reverse** insertion order
(`scored.sort(reverse=True)` sorts equal-score tuples by descending
index), not in original insertion order. -/
theorem tfidf_tie_counterexample :
    retrieveCore (buildState ["aa bb", "bb aa"]) "aa" 5 = ["bb aa", "aa bb"] ∧
    (scoredList (buildState ["aa bb", "bb aa"]) "aa").map Prod.fst
      = [1 / Real.sqrt 2, 1 / Real.sqrt 2] ∧
    ("aa bb" : String) ≠ "bb aa" := by
  have h1 : keptDocsF ["aa bb", "bb aa"] = ["aa bb", "bb aa"] := by decide
  have h2 : tokenize "aa bb" = ["aa", "bb"] := by decide
  have h3 : tokenize "bb aa" = ["bb", "aa"] := by decide
  have h4 : tokenize "aa" = ["aa"] := by decide
  have hdfa : dfOf [["aa", "bb"], ["bb", "aa"]] "aa" = 2 := by decide
  have hdfb : dfOf [["aa", "bb"], ["bb", "aa"]] "bb" = 2 := by decide
  have hidf : idfVal 2 2 = 1 := by
    rw [idfVal]
    norm_num
  have hd1 : (["aa", "bb"] : List String).dedup = ["aa", "bb"] := by decide
  have hd2 : (["bb", "aa"] : List String).dedup = ["bb", "aa"] := by decide
  have hd3 : (["aa"] : List String).dedup = ["aa"] := by decide
  have hc1 : (["aa", "bb"] : List String).count "aa" = 1 := by decide
  have hc2 : (["aa", "bb"] : List String).count "bb" = 1 := by decide
  have hc3 : (["bb", "aa"] : List String).count "aa" = 1 := by decide
  have hc4 : (["bb", "aa"] : List String).count "bb" = 1 := by decide
  have hc5 : (["aa"] : List String).count "aa" = 1 := by decide
  have hdocs : (buildState ["aa bb", "bb aa"]).docs = ["aa bb", "bb aa"] := by
    rw [show (buildState ["aa bb", "bb aa"]).docs = keptDocsF ["aa bb", "bb aa"] from rfl, h1]
  have hvecs : (buildState ["aa bb", "bb aa"]).doc_vecs
      = [[("aa", (1:ℝ)), ("bb", 1)], [("bb", (1:ℝ)), ("aa", 1)]] := by
    rw [buildState_doc_vecs, h1]
    simp only [List.map_cons, List.map_nil, h2, h3, List.length_cons, List.length_nil,
      weightVec, hd1, hd2, hc1, hc2, hc3, hc4, hdfa, hdfb]
    norm_num [hidf]
  have hsq2 : Real.sqrt 2 ≠ 0 := ne_of_gt (Real.sqrt_pos.mpr (by norm_num))
  have hnorms : (buildState ["aa bb", "bb aa"]).norms = [Real.sqrt 2, Real.sqrt 2] := by
    have hh : (buildState ["aa bb", "bb aa"]).norms
        = (buildState ["aa bb", "bb aa"]).doc_vecs.map
            (fun v => pyOr1 (Real.sqrt (sumSq v))) := rfl
    have hs1 : sumSq [("aa", (1:ℝ)), ("bb", 1)] = 2 := by norm_num [sumSq]
    have hs2 : sumSq [("bb", (1:ℝ)), ("aa", 1)] = 2 := by norm_num [sumSq]
    rw [hh, hvecs]
    simp only [List.map_cons, List.map_nil, hs1, hs2]
    simp [pyOr1, hsq2]
  have hqv : queryVec (buildState ["aa bb", "bb aa"]) "aa" = [("aa", (1:ℝ))] := by
    have hh : queryVec (buildState ["aa bb", "bb aa"]) "aa"
        = weightVec (buildState ["aa bb", "bb aa"]).docs.length
            (buildState ["aa bb", "bb aa"]).df (tokenize "aa") := rfl
    have hdf : (buildState ["aa bb", "bb aa"]).df "aa" = 2 := by
      rw [show (buildState ["aa bb", "bb aa"]).df
            = dfOf (List.map tokenize (keptDocsF ["aa bb", "bb aa"])) from rfl, h1]
      simp only [List.map_cons, List.map_nil, h2, h3]
      exact hdfa
    rw [hh, hdocs, h4, weightVec, hd3]
    simp only [List.map_cons, List.map_nil, hc5, List.length_cons, List.length_nil, hdf]
    norm_num [hidf]
  have hqn : pyOr1 (Real.sqrt (sumSq [("aa", (1:ℝ))])) = 1 := by
    have hs : sumSq [("aa", (1:ℝ))] = 1 := by norm_num [sumSq]
    rw [hs, Real.sqrt_one, pyOr1, if_neg one_ne_zero]
  have hbeq : (("aa" : String) == "bb") = false := by decide
  have hdot0 : dotQ [("aa", (1:ℝ))] [("aa", (1:ℝ)), ("bb", 1)] = 1 := by
    simp [dotQ, List.lookup]
  have hdot1 : dotQ [("aa", (1:ℝ))] [("bb", (1:ℝ)), ("aa", 1)] = 1 := by
    simp [dotQ, List.lookup, hbeq]
  have hscored : scoredList (buildState ["aa bb", "bb aa"]) "aa"
      = [(1 / Real.sqrt 2, 0), (1 / Real.sqrt 2, 1)] := by
    simp only [scoredList, hvecs, hnorms, hqv, hqn]
    simp only [List.enum, List.enumFrom, List.map_cons, List.map_nil,
      List.getD_cons_zero, List.getD_cons_succ, hdot0, hdot1]
    simp [pyOr1, hsq2]
  have hnotge : ¬ lexGe (1 / Real.sqrt 2, 0) (1 / Real.sqrt 2, 1) := by
    rw [lexGe]
    push_neg
    refine ⟨by norm_num, fun _ => by norm_num⟩
  have hsort : sortScored [(1 / Real.sqrt 2, 0), (1 / Real.sqrt 2, 1)]
      = [(1 / Real.sqrt 2, 1), (1 / Real.sqrt 2, 0)] := by
    rw [sortScored]
    simp only [List.insertionSort, List.orderedInsert]
    rw [if_neg hnotge]
  have hpos : (0:ℝ) < 1 / Real.sqrt 2 := by positivity
  have hpairs : retrievePairs (buildState ["aa bb", "bb aa"]) "aa" 5
      = [(1 / Real.sqrt 2, 1), (1 / Real.sqrt 2, 0)] := by
    rw [retrievePairs, hscored, hsort]
    simp [hpos]
  refine ⟨?_, ?_, by decide⟩
  · rw [retrieveCore, hpairs, hdocs]
    simp [List.getD]
  · rw [hscored]
    simp
end GymAdvisor
